import Mathlib

/-
Verification of the ACL link manager in system/main/shim/acl.cc.

The definitions below are a shallow embedding of the data model and the
operations of the ACL shim: shadow controller lists, the connection
history ring, the per-link packet state machine, and the event-router
entry points.  Machine integers are modelled as Nat with explicit
masking where overflow matters; fallible or aborting code paths return
Option; each event-router function additionally returns the ordered
list of externally visible actions (posted callbacks, lower-layer
calls, registry and history mutations) that the C++ body performs, in
source order.  The std::unordered_set containers backing the shadow
lists are modelled as duplicate-free lists: insertion is a no-op on a
present element and erasure removes the stored element.
-/

set_option autoImplicit false

namespace AclShim

/-- A six-byte Bluetooth device address, as stored by hci::Address.
Index 5 is the most significant byte for the RPA check in the source. -/
structure Address where
  b0 : Nat
  b1 : Nat
  b2 : Nat
  b3 : Nat
  b4 : Nat
  b5 : Nat
deriving DecidableEq

/-- hci::AddressType values relevant to the shim. -/
inductive AddressType where
  | publicDevice
  | randomDevice
  | publicIdentity
  | randomIdentity
deriving DecidableEq

/-- hci::AddressWithType: a device address paired with its address type. -/
structure AddressWithType where
  address : Address
  type : AddressType
deriving DecidableEq

/-- hci::FilterAcceptListAddressType: the key space of the controller
filter accept list distinguishes only public and random entries. -/
inductive FilterAcceptListAddressType where
  | publicAddr
  | randomAddr
deriving DecidableEq

/-- Modelled from the spec: AddressWithType::ToFilterAcceptListAddressType
(declared in hci/address_with_type.h, outside this repository's sources)
collapses the four address types onto the two filter-accept-list key
types, public-like to public and random-like to random. -/
def AddressType.toFilterAcceptListAddressType :
    AddressType → FilterAcceptListAddressType
  | .publicDevice => .publicAddr
  | .publicIdentity => .publicAddr
  | .randomDevice => .randomAddr
  | .randomIdentity => .randomAddr

/-- ConnectAddressWithType: the key stored in the shadow accept list,
built from an AddressWithType by keeping the raw address and the
filter-accept-list address type. -/
structure ConnectAddressWithType where
  address : Address
  type : FilterAcceptListAddressType
deriving DecidableEq

/-- Conversion applied by the ConnectAddressWithType constructor. -/
def ConnectAddressWithType.ofAddressWithType
    (a : AddressWithType) : ConnectAddressWithType :=
  ⟨a.address, a.type.toFilterAcceptListAddressType⟩

/-- IsRpa from acl.cc: the address type is RANDOM_DEVICE_ADDRESS and the
top two bits of byte 5 of the raw address are 01. -/
def IsRpa (a : AddressWithType) : Bool :=
  a.type = AddressType.randomDevice && (a.address.b5 &&& 0xc0) = 0x40

/-- std::unordered_set::insert: a no-op when the element is present. -/
def setInsert {α : Type} [DecidableEq α] (l : List α) (x : α) : List α :=
  if x ∈ l then l else x :: l

/-- ShadowAcceptlist: host-side mirror of the controller filter accept
list, a set of ConnectAddressWithType keys bounded by a capacity fixed
at construction. -/
structure ShadowAcceptlist where
  max_acceptlist_size : Nat
  acceptlist_set : List ConnectAddressWithType
deriving DecidableEq

namespace ShadowAcceptlist

/-- ShadowAcceptlist::Add: reject (false) when the set already holds
max_acceptlist_size elements; otherwise insert the key (a duplicate
insert only logs) and report true. -/
def Add (s : ShadowAcceptlist) (a : AddressWithType) :
    Bool × ShadowAcceptlist :=
  let k := ConnectAddressWithType.ofAddressWithType a
  if s.acceptlist_set.length = s.max_acceptlist_size then
    (false, s)
  else
    (true, { s with acceptlist_set := setInsert s.acceptlist_set k })

/-- ShadowAcceptlist::Remove: erase the key when present, reporting
whether an element was removed. -/
def Remove (s : ShadowAcceptlist) (a : AddressWithType) :
    Bool × ShadowAcceptlist :=
  let k := ConnectAddressWithType.ofAddressWithType a
  if k ∈ s.acceptlist_set then
    (true, { s with acceptlist_set := s.acceptlist_set.erase k })
  else
    (false, s)

/-- ShadowAcceptlist::IsFull. -/
def IsFull (s : ShadowAcceptlist) : Bool :=
  s.acceptlist_set.length = s.max_acceptlist_size

/-- ShadowAcceptlist::Clear. -/
def Clear (s : ShadowAcceptlist) : ShadowAcceptlist :=
  { s with acceptlist_set := [] }

end ShadowAcceptlist

/-- ShadowAddressResolutionList: host-side mirror of the controller
address resolution list, a set of AddressWithType bounded by a capacity
fixed at construction. -/
structure ShadowAddressResolutionList where
  max_address_resolution_size : Nat
  address_resolution_set : List AddressWithType
deriving DecidableEq

namespace ShadowAddressResolutionList

/-- ShadowAddressResolutionList::Add: reject (false) when the set
already holds max_address_resolution_size elements; otherwise insert
(a duplicate insert only logs) and report true. -/
def Add (s : ShadowAddressResolutionList) (a : AddressWithType) :
    Bool × ShadowAddressResolutionList :=
  let l := setInsert s.address_resolution_set a
  if s.address_resolution_set.length = s.max_address_resolution_size then
    (false, s)
  else
    (true, { s with address_resolution_set := l })

/-- ShadowAddressResolutionList::Remove. -/
def Remove (s : ShadowAddressResolutionList) (a : AddressWithType) :
    Bool × ShadowAddressResolutionList :=
  let l := s.address_resolution_set.erase a
  if a ∈ s.address_resolution_set then
    (true, { s with address_resolution_set := l })
  else
    (false, s)

end ShadowAddressResolutionList

/-- LowByte from acl.cc: val & 0xff. -/
def LowByte (v : Nat) : Nat := v &&& 0xff

/-- HighByte from acl.cc: val >> 8. -/
def HighByte (v : Nat) : Nat := v >>> 8

/-- Diagnostic log records emitted by the per-link operations. -/
inductive LinkLog where
  | multipleDisconnectError (handle : Nat) (creationTime : Nat)
  | disconnectStrandedPackets (handle : Nat) (count : Nat)
deriving DecidableEq

/-- Per-link state of ShimAclConnection: connection handle, creation
time, the outbound FIFO of packet builders (payloads as byte lists),
the enqueue/dequeue registrations against the lower queue and the
disconnected latch.  The constructor registers the dequeue callback. -/
structure LinkState where
  handle : Nat
  creation_time : Nat
  queue : List (List Nat)
  is_enqueue_registered : Bool
  is_dequeue_registered : Bool
  is_disconnected : Bool
deriving DecidableEq

namespace ShimAclConnection

/-- State of a ShimAclConnection right after construction. -/
def mkLink (handle creationTime : Nat) : LinkState :=
  { handle := handle
    creation_time := creationTime
    queue := []
    is_enqueue_registered := false
    is_dequeue_registered := true
    is_disconnected := false }

/-- ShimAclConnection::RegisterEnqueue: a fatal assertion (modelled as
none) fires when the disconnected latch is set; otherwise the enqueue
callback is registered with the lower queue unless it already is. -/
def RegisterEnqueue (s : LinkState) : Option LinkState :=
  if s.is_disconnected then
    none
  else if s.is_enqueue_registered then
    some s
  else
    some { s with is_enqueue_registered := true }

/-- ShimAclConnection::UnregisterEnqueue. -/
def UnregisterEnqueue (s : LinkState) : LinkState :=
  if s.is_enqueue_registered then
    { s with is_enqueue_registered := false }
  else
    s

/-- ShimAclConnection::EnqueuePacket: push the builder onto the FIFO,
then RegisterEnqueue (which asserts the link is not disconnected). -/
def EnqueuePacket (s : LinkState) (p : List Nat) : Option LinkState :=
  RegisterEnqueue { s with queue := s.queue ++ [p] }

/-- ShimAclConnection::handle_enqueue: pop the front of the FIFO and
unregister the enqueue callback when the FIFO drains; popping an empty
FIFO is undefined (none).  Returns the popped builder. -/
def handle_enqueue (s : LinkState) : Option (LinkState × List Nat) :=
  match s.queue with
  | [] => none
  | p :: rest =>
    let s1 := { s with queue := rest }
    if rest.isEmpty then
      some (UnregisterEnqueue s1, p)
    else
      some (s1, p)

/-- ShimAclConnection::Disconnect: refused with an error log carrying
the handle and creation time when the latch is already set; otherwise
set the latch, unregister enqueue and dequeue, and warn if the FIFO is
not empty. -/
def Disconnect (s : LinkState) : LinkState × List LinkLog :=
  if s.is_disconnected then
    (s, [LinkLog.multipleDisconnectError s.handle s.creation_time])
  else
    let s1 := UnregisterEnqueue { s with is_disconnected := true }
    let s2 := { s1 with is_dequeue_registered := false }
    if s.queue.isEmpty then
      (s2, [])
    else
      (s2, [LinkLog.disconnectStrandedPackets s.handle s.queue.length])

/-- Modelled from the spec: MakeLegacyBtHdrPacket (declared in
main/shim/helpers.h, outside this repository's sources) builds the
legacy BT_HDR buffer as the 4-byte preamble followed by the raw
payload. -/
def MakeLegacyBtHdrPacket (packet : List Nat) (preamble : List Nat) :
    List Nat :=
  preamble ++ packet

/-- ShimAclConnection::data_ready_callback, payload computation: the
dequeued inbound packet length is truncated to uint16, the 4-byte
preamble (handle low, handle high, length low, length high) is built
and the BT_HDR buffer handed to the send_data_upwards sink. -/
def data_ready_payload (handle : Nat) (packet : List Nat) : List Nat :=
  let length := packet.length % 65536
  let preamble :=
    [LowByte handle, HighByte handle, LowByte length, HighByte length]
  MakeLegacyBtHdrPacket packet preamble

end ShimAclConnection

/-- The three per-link operations that drive the outbound FIFO: an
upper-stack enqueue, the lower queue consuming one packet (it invokes
the registered enqueue callback), and a disconnect. -/
inductive LinkOp where
  | enq (p : List Nat)
  | deq
  | disc
deriving DecidableEq

/-- One link operation: the lower queue invokes handle_enqueue only
while the enqueue callback is registered; an enqueue attempt on a
disconnected link hits the RegisterEnqueue assertion (none). -/
def stepLink (s : LinkState) (op : LinkOp) : Option LinkState :=
  match op with
  | .enq p => ShimAclConnection.EnqueuePacket s p
  | .deq =>
    if s.is_enqueue_registered then
      (ShimAclConnection.handle_enqueue s).map Prod.fst
    else
      some s
  | .disc => some (ShimAclConnection.Disconnect s).1

/-- Run a sequence of link operations. -/
def runLink (s : LinkState) : List LinkOp → Option LinkState
  | [] => some s
  | op :: ops =>
    match stepLink s op with
    | none => none
    | some s1 => runLink s1 ops

/-- The enqueue-registration invariant of a link: registered iff the
outbound FIFO is non-empty and the disconnected latch is not set. -/
def LinkInv (s : LinkState) : Prop :=
  s.is_enqueue_registered = (!s.queue.isEmpty && !s.is_disconnected)

instance (s : LinkState) : Decidable (LinkInv s) := by
  unfold LinkInv; infer_instance

/-- Remote feature page actions of ClassicShimAclConnection: callbacks
posted to the upper interface and reads issued to the lower connection. -/
inductive FeatureEvent where
  | postSupportedFeatures (handle : Nat) (features : Nat)
  | postExtendedFeatures (handle page maxPage features : Nat)
  | readRemoteExtendedFeatures (page : Nat)
deriving DecidableEq

/-- ClassicShimAclConnection::OnReadRemoteSupportedFeaturesComplete:
post the page-0 feature word; when bit 63 (extended features
supported) is set, request extended features page 1. -/
def OnReadRemoteSupportedFeaturesComplete (handle features : Nat) :
    List FeatureEvent :=
  let posted := [FeatureEvent.postSupportedFeatures handle features]
  if features.testBit 63 then
    posted ++ [FeatureEvent.readRemoteExtendedFeatures 1]
  else
    posted

/-- ClassicShimAclConnection::OnReadRemoteExtendedFeaturesComplete:
post the page; stop when page 0 reports bit 63 clear; otherwise issue
the read of page + 1 when max_page is non-zero and page differs from
max_page. -/
def OnReadRemoteExtendedFeaturesComplete
    (handle page maxPage features : Nat) : List FeatureEvent :=
  let posted :=
    [FeatureEvent.postExtendedFeatures handle page maxPage features]
  if page = 0 ∧ features.testBit 63 = false then
    posted
  else if maxPage ≠ 0 ∧ page ≠ maxPage then
    posted ++ [FeatureEvent.readRemoteExtendedFeatures (page + 1)]
  else
    posted

/-- The pages requested by a list of feature events, in order. -/
def requestedPages (l : List FeatureEvent) : List Nat :=
  l.filterMap fun e =>
    match e with
    | .readRemoteExtendedFeatures p => some p
    | _ => none

/-- LE role of a connection. -/
inductive Role where
  | central
  | peripheral
deriving DecidableEq

/-- hci::DisconnectReason values used by the shim. -/
inductive DisconnectReason where
  | remoteUserTerminatedConnection
  | other (code : Nat)
deriving DecidableEq

/-- Role-specific data of an LE connection: as peripheral it carries
whether the peer connected while discoverable and the optional
advertising set id; as central it carries nothing. -/
inductive RoleSpecificData where
  | asCentral
  | asPeripheral (connectedToDiscoverable : Bool)
      (advertisingSetId : Option Nat)
deriving DecidableEq

/-- The fields of hci::acl_manager::LeAclConnection read by the shim on
an LE connect-success event. -/
structure LeConnectionRecord where
  connHandle : Nat
  peerAddressWithType : AddressWithType
  remoteAddress : AddressWithType
  role : Role
  locallyInitiated : Bool
  interval : Nat
  latency : Nat
  supervisionTimeout : Nat
  localResolvablePrivateAddress : Address
  peerResolvablePrivateAddress : Address
  inFilterAcceptList : Bool
  roleSpecificData : RoleSpecificData
deriving DecidableEq

/-- A live LE link held by the registry: the wrapped connection record
plus the creation time recorded at emplacement. -/
structure LeLink where
  conn : LeConnectionRecord
  creationTime : Nat
deriving DecidableEq

/-- A live classic link held by the registry. -/
structure ClassicLink where
  remoteAddress : Address
  creationTime : Nat
  locallyInitiated : Bool
deriving DecidableEq

/-- ConnectionDescriptor pushed onto the connection history ring. -/
inductive ConnectionDescriptor where
  | classic (remote : Address) (creationTime teardownTime handle : Nat)
      (isLocallyInitiated : Bool) (reason : Nat)
  | le (remote : AddressWithType) (creationTime teardownTime handle : Nat)
      (isLocallyInitiated : Bool) (reason : Nat)
deriving DecidableEq

/-- FixedQueue from acl.cc: bounded ring, the oldest element is evicted
when a push hits the capacity. -/
structure FixedQueue (α : Type) where
  max_size : Nat
  queue : List α

/-- FixedQueue::Push. -/
def FixedQueue.Push {α : Type} (q : FixedQueue α) (x : α) : FixedQueue α :=
  if q.queue.length = q.max_size then
    { q with queue := q.queue.tail ++ [x] }
  else
    { q with queue := q.queue ++ [x] }

/-- std::map::emplace on an assoc list: no insertion when the key is
already present. -/
def emplaceLink {α : Type} (m : List (Nat × α)) (k : Nat) (v : α) :
    List (Nat × α) :=
  match m.lookup k with
  | some _ => m
  | none => (k, v) :: m

/-- std::map::erase on an assoc list. -/
def eraseLink {α : Type} (m : List (Nat × α)) (k : Nat) :
    List (Nat × α) :=
  m.filter fun p => p.1 ≠ k

/-- Externally visible actions performed by the event-router entry
points of shim::legacy::Acl, in source order. -/
inductive AclEvent where
  | insertClassicLink (handle : Nat)
  | insertLeLink (handle : Nat)
  | registerLinkCallbacks (handle : Nat)
  | acceptlistRemove (k : ConnectAddressWithType)
  | initiateDisconnect (handle : Nat) (reason : DisconnectReason)
  | readRemoteControllerInformation (handle : Nat)
  | postLeOnConnected (addr : AddressWithType) (handle : Nat) (role : Role)
      (interval latency timeout : Nat) (localRpa peerRpa : Address)
      (peerAddrType : AddressType) (canReadDiscoverable : Bool)
  | postClassicOnDisconnected (status handle reason : Nat)
  | postLeOnDisconnected (status handle reason : Nat)
  | eraseClassicLink (handle : Nat)
  | eraseLeLink (handle : Nat)
  | pushHistoryEntry (handle : Nat)
  | createLeConnection (a : AddressWithType) (isDirect : Bool)
deriving DecidableEq

/-- The state of shim::legacy::Acl::impl that the claims touch: the
two handle-keyed registries, the shadow accept list and the connection
history ring. -/
structure AclState where
  classicMap : List (Nat × ClassicLink)
  leMap : List (Nat × LeLink)
  shadowAcceptlist : ShadowAcceptlist
  connectionHistory : FixedQueue ConnectionDescriptor

namespace Acl

/-- shim::legacy::Acl::OnClassicLinkDisconnected: read the link fields,
erase the handle from the classic registry, post on_disconnected with
legacy status SUCCESS, and push the history descriptor.  Indexing an
absent handle is undefined (none). -/
def OnClassicLinkDisconnected (st : AclState)
    (handle reason teardownTime : Nat) :
    Option (AclState × List AclEvent) :=
  match st.classicMap.lookup handle with
  | none => none
  | some link =>
    let st1 := { st with classicMap := eraseLink st.classicMap handle }
    let desc := ConnectionDescriptor.classic link.remoteAddress
      link.creationTime teardownTime handle link.locallyInitiated reason
    let st2 :=
      { st1 with connectionHistory := st1.connectionHistory.Push desc }
    some (st2,
      [AclEvent.eraseClassicLink handle,
       AclEvent.postClassicOnDisconnected 0 handle reason,
       AclEvent.pushHistoryEntry handle])

/-- shim::legacy::Acl::OnLeLinkDisconnected: read the link fields,
erase the handle from the LE registry, post on_disconnected with
legacy status SUCCESS, and push the history descriptor. -/
def OnLeLinkDisconnected (st : AclState)
    (handle reason teardownTime : Nat) :
    Option (AclState × List AclEvent) :=
  match st.leMap.lookup handle with
  | none => none
  | some link =>
    let st1 := { st with leMap := eraseLink st.leMap handle }
    let desc := ConnectionDescriptor.le link.conn.remoteAddress
      link.creationTime teardownTime handle link.conn.locallyInitiated
      reason
    let st2 :=
      { st1 with connectionHistory := st1.connectionHistory.Push desc }
    some (st2,
      [AclEvent.eraseLeLink handle,
       AclEvent.postLeOnDisconnected 0 handle reason,
       AclEvent.pushHistoryEntry handle])

/-- shim::legacy::Acl::OnLeConnectSuccess: emplace the LE link and
register its callbacks; remove the peer identity (the separate
identity field when the reported address is an RPA, the reported
address otherwise) from the shadow accept list; when the link was not
in the controller filter accept list and the role is central, initiate
disconnect with REMOTE_USER_TERMINATED_CONNECTION and return without
posting on_connected; otherwise read remote controller information and
post on_connected. -/
def OnLeConnectSuccess (st : AclState) (addressWithType : AddressWithType)
    (conn : LeConnectionRecord) (now : Nat) : AclState × List AclEvent :=
  let handle := conn.connHandle
  let peerAddressWithType := conn.peerAddressWithType
  let connectionRole := conn.role
  let canReadDiscoverableCharacteristics :=
    match conn.roleSpecificData with
    | .asPeripheral d _ => d
    | .asCentral => true
  let m1 := emplaceLink st.leMap handle ⟨conn, now⟩
  let link := ((m1.lookup handle).getD ⟨conn, now⟩)
  let ev0 := [AclEvent.insertLeLink handle,
              AclEvent.registerLinkCallbacks handle]
  let identity :=
    if IsRpa addressWithType then peerAddressWithType else addressWithType
  let sh := (st.shadowAcceptlist.Remove identity).2
  let ev1 := ev0 ++
    [AclEvent.acceptlistRemove
      (ConnectAddressWithType.ofAddressWithType identity)]
  let st1 := { st with leMap := m1, shadowAcceptlist := sh }
  if !link.conn.inFilterAcceptList && connectionRole = Role.central then
    (st1, ev1 ++
      [AclEvent.initiateDisconnect handle
        DisconnectReason.remoteUserTerminatedConnection])
  else
    (st1, ev1 ++
      [AclEvent.readRemoteControllerInformation handle,
       AclEvent.postLeOnConnected addressWithType handle connectionRole
         conn.interval conn.latency conn.supervisionTimeout
         conn.localResolvablePrivateAddress
         conn.peerResolvablePrivateAddress
         conn.peerAddressWithType.type
         canReadDiscoverableCharacteristics])

/-- shim::legacy::Acl::impl::accept_le_connection_from: when the shadow
accept list is full, resolve the promise false and do nothing else;
otherwise add the address to the shadow list, resolve the promise true
and call the lower CreateLeConnection. -/
def accept_le_connection_from (sh : ShadowAcceptlist)
    (addressWithType : AddressWithType) (isDirect : Bool) :
    Bool × ShadowAcceptlist × List AclEvent :=
  if sh.IsFull then
    (false, sh, [])
  else
    let sh1 := (sh.Add addressWithType).2
    (true, sh1, [AclEvent.createLeConnection addressWithType isDirect])

end Acl

/-- Tests an event being the on_disconnected post for handle h, on
either transport. -/
def isPostDisconnected (h : Nat) : AclEvent → Bool
  | .postClassicOnDisconnected _ hh _ => hh == h
  | .postLeOnDisconnected _ hh _ => hh == h
  | _ => false

/-- Tests an event being the history push for handle h. -/
def isPushHistory (h : Nat) : AclEvent → Bool
  | .pushHistoryEntry hh => hh == h
  | _ => false

/-- Tests an event being an LE on_connected post. -/
def isPostLeOnConnected : AclEvent → Bool
  | .postLeOnConnected _ _ _ _ _ _ _ _ _ _ => true
  | _ => false

/-- Every on_disconnected post for h in the trace occurs after some
history push for h: scanning left to right, a post for h seen before
any push for h refutes it, and once a push for h is seen all later
posts are after it. -/
def postsOnlyAfterPush (tr : List AclEvent) (h : Nat) : Bool :=
  match tr with
  | [] => true
  | e :: rest =>
    if isPostDisconnected h e then false
    else if isPushHistory h e then true
    else postsOnlyAfterPush rest h

/-- Every history push for h in the trace occurs after some
on_disconnected post for h. -/
def pushOnlyAfterPost (tr : List AclEvent) (h : Nat) : Bool :=
  match tr with
  | [] => true
  | e :: rest =>
    if isPushHistory h e then false
    else if isPostDisconnected h e then true
    else pushOnlyAfterPost rest h

/-- Claim C1 as stated, evaluated on a disconnect trace: the
on_disconnected post for h appears exactly once and only after the
history push for h. -/
def postedOnceOnlyAfterPush (tr : List AclEvent) (h : Nat) : Bool :=
  (tr.countP (isPostDisconnected h) == 1) && postsOnlyAfterPush tr h

/-- The continuation rule for extended-feature pages as the claim
states it: stop on page 0 with bit 63 clear, otherwise request
page + 1 exactly while page < max_page.  Stated from the claim's words
for comparison against the source behaviour. -/
def claimContinuationRule (page maxPage features : Nat) : List Nat :=
  if page = 0 ∧ features.testBit 63 = false then []
  else if page < maxPage then [page + 1] else []

/-- Claim C7's reading of an enqueue on a disconnected link: the call
is refused and returns with the link state unchanged. -/
def enqueueRefusedUnchanged (s : LinkState) (p : List Nat) : Prop :=
  ShimAclConnection.EnqueuePacket s p = some s

/-- A sample public address. -/
def addrA : AddressWithType := ⟨⟨1, 2, 3, 4, 5, 6⟩, .publicDevice⟩

/-- A second sample public address. -/
def addrB : AddressWithType := ⟨⟨7, 8, 9, 10, 11, 12⟩, .publicDevice⟩

/-- The accept-list key of addrA. -/
def keyA : ConnectAddressWithType :=
  ConnectAddressWithType.ofAddressWithType addrA

/-- A shadow accept list of capacity 5 holding exactly addrA. -/
def shOneA : ShadowAcceptlist := ⟨5, [keyA]⟩

/-- A full shadow accept list of capacity 1 holding exactly addrA. -/
def shFullA : ShadowAcceptlist := ⟨1, [keyA]⟩

/-- An empty shadow accept list of capacity 2. -/
def shEmpty : ShadowAcceptlist := ⟨2, []⟩

/-- A full shadow address resolution list of capacity 1 holding addrA. -/
def resFullA : ShadowAddressResolutionList := ⟨1, [addrA]⟩

/-- A classic link fixture. -/
def linkC1 : ClassicLink := ⟨⟨1, 2, 3, 4, 5, 6⟩, 50, true⟩

/-- An ACL state with one classic link on handle 9. -/
def stC1 : AclState :=
  { classicMap := [(9, linkC1)]
    leMap := []
    shadowAcceptlist := shEmpty
    connectionHistory := ⟨40, []⟩ }

/-- An ACL state with no links and shadow accept list holding addrA. -/
def stOneA : AclState :=
  { classicMap := []
    leMap := []
    shadowAcceptlist := shOneA
    connectionHistory := ⟨40, []⟩ }

/-- An LE connection record fixture: handle 0x40, central, reporting
that it was not in the controller filter accept list. -/
def connRace : LeConnectionRecord :=
  { connHandle := 64
    peerAddressWithType := addrB
    remoteAddress := addrB
    role := .central
    locallyInitiated := true
    interval := 24
    latency := 0
    supervisionTimeout := 400
    localResolvablePrivateAddress := ⟨0, 0, 0, 0, 0, 0⟩
    peerResolvablePrivateAddress := ⟨0, 0, 0, 0, 0, 0⟩
    inFilterAcceptList := false
    roleSpecificData := .asCentral }

/-- An LE connection record fixture: handle 0x41, central, in the
controller filter accept list, peer addrA. -/
def connOk : LeConnectionRecord :=
  { connRace with
    connHandle := 65
    peerAddressWithType := addrA
    remoteAddress := addrA
    inFilterAcceptList := true }

/-- A disconnected link fixture. -/
def discLink : LinkState :=
  { handle := 5
    creation_time := 11
    queue := []
    is_enqueue_registered := false
    is_dequeue_registered := false
    is_disconnected := true }

/-- An element is a member of the set after setInsert. -/
theorem mem_setInsert_self {α : Type} [DecidableEq α] (l : List α) (x : α) :
    x ∈ setInsert l x := by
  unfold setInsert
  split
  · assumption
  · exact List.mem_cons_self x l

/-- C9: the claim fails when the entry is already a member: on the
shadow accept list of capacity 5 holding exactly addrA, Add addrA is a
duplicate no-op and Remove addrA then deletes the element, so the list
does not return to its prior contents (addrA's key was a member before
and is no longer one after). -/
theorem C9_counterexample :
    keyA ∈ shOneA.acceptlist_set ∧
    keyA ∉ ((shOneA.Add addrA).2.Remove addrA).2.acceptlist_set := by
  decide

/-- C9 (amended): add(x) followed by remove(x) returns a shadow list
(accept list or address-resolution list) to exactly its prior
contents, provided x was not already a member. -/
theorem C9_theorem :
    (∀ (s : ShadowAcceptlist) (x : AddressWithType),
      ConnectAddressWithType.ofAddressWithType x ∉ s.acceptlist_set →
      ((s.Add x).2.Remove x).2 = s) ∧
    (∀ (r : ShadowAddressResolutionList) (y : AddressWithType),
      y ∉ r.address_resolution_set →
      ((r.Add y).2.Remove y).2 = r) := by
  constructor
  · intro s x hmem
    by_cases hfull : s.acceptlist_set.length = s.max_acceptlist_size
    · simp [ShadowAcceptlist.Add, ShadowAcceptlist.Remove, hfull, hmem]
    · simp [ShadowAcceptlist.Add, ShadowAcceptlist.Remove, hfull, hmem,
        setInsert]
  · intro r y hmem
    by_cases hfull :
        r.address_resolution_set.length = r.max_address_resolution_size
    · simp [ShadowAddressResolutionList.Add,
        ShadowAddressResolutionList.Remove, hfull, hmem]
    · simp [ShadowAddressResolutionList.Add,
        ShadowAddressResolutionList.Remove, hfull, hmem, setInsert]

/-- Witness for C9: with addrA absent, add-then-remove restores both
sample shadow lists exactly. -/
theorem C9_witness :
    ((shEmpty.Add addrA).2.Remove addrA).2 = shEmpty ∧
    ((ShadowAddressResolutionList.Add ⟨2, []⟩ addrA).2.Remove addrA).2 =
      (⟨2, []⟩ : ShadowAddressResolutionList) := by
  exact ⟨C9_theorem.1 shEmpty addrA (by decide),
         C9_theorem.2 ⟨2, []⟩ addrA (by decide)⟩

/-- C10: on a shadow list at capacity, Add rejects with false and
leaves the list unchanged even when the entry is already a member:
the capacity check precedes the membership check, so a duplicate add
on a full list is never reported as duplicate-ok (true). -/
theorem C10_theorem :
    (∀ (s : ShadowAcceptlist) (x : AddressWithType),
      s.acceptlist_set.length = s.max_acceptlist_size →
      ConnectAddressWithType.ofAddressWithType x ∈ s.acceptlist_set →
      s.Add x = (false, s)) ∧
    (∀ (r : ShadowAddressResolutionList) (y : AddressWithType),
      r.address_resolution_set.length = r.max_address_resolution_size →
      y ∈ r.address_resolution_set →
      r.Add y = (false, r)) := by
  constructor
  · intro s x hfull _
    simp [ShadowAcceptlist.Add, hfull]
  · intro r y hfull _
    simp [ShadowAddressResolutionList.Add, hfull]

/-- Witness for C10: a full capacity-1 accept list holding addrA and a
full capacity-1 resolution list holding addrA both reject a duplicate
add of addrA with the full rejection. -/
theorem C10_witness :
    shFullA.Add addrA = (false, shFullA) ∧
    resFullA.Add addrA = (false, resFullA) := by
  exact ⟨C10_theorem.1 shFullA addrA (by decide) (by decide),
         C10_theorem.2 resFullA addrA (by decide) (by decide)⟩

/-- C4: accept_le on a full shadow accept list resolves the promise
false, leaves the shadow list unchanged and issues no lower call; on a
non-full list it resolves true, the address's key is in the shadow
list afterwards, and the lower CreateLeConnection is invoked for that
address. -/
theorem C4_theorem :
    ∀ (sh : ShadowAcceptlist) (a : AddressWithType) (d : Bool),
    (sh.IsFull = true →
      Acl.accept_le_connection_from sh a d = (false, sh, [])) ∧
    (sh.IsFull = false →
      (Acl.accept_le_connection_from sh a d).1 = true ∧
      ConnectAddressWithType.ofAddressWithType a ∈
        (Acl.accept_le_connection_from sh a d).2.1.acceptlist_set ∧
      (Acl.accept_le_connection_from sh a d).2.2 =
        [AclEvent.createLeConnection a d]) := by
  intro sh a d
  constructor
  · intro hfull
    simp [Acl.accept_le_connection_from, hfull]
  · intro hnotfull
    have hlen : ¬ sh.acceptlist_set.length = sh.max_acceptlist_size := by
      simpa [ShadowAcceptlist.IsFull] using hnotfull
    refine ⟨?_, ?_, ?_⟩ <;>
      simp [Acl.accept_le_connection_from, ShadowAcceptlist.IsFull,
        ShadowAcceptlist.Add, hlen, mem_setInsert_self]

/-- Witness for C4: the empty capacity-2 list accepts addrA and calls
CreateLeConnection; the full capacity-1 list refuses addrB untouched. -/
theorem C4_witness :
    Acl.accept_le_connection_from shFullA addrB true = (false, shFullA, []) ∧
    (Acl.accept_le_connection_from shEmpty addrA true).1 = true := by
  exact ⟨(C4_theorem shFullA addrB true).1 (by decide),
         ((C4_theorem shEmpty addrA true).2 (by decide)).1⟩

/-- C5: the claim fails at a completion with page 2 and max_page 1:
the source requests page 3 (the condition is max_page non-zero and
page different from max_page), while the claim's rule (request only
while page < max_page) requests nothing. -/
theorem C5_counterexample :
    requestedPages (OnReadRemoteExtendedFeaturesComplete 16 2 1 0) = [3] ∧
    claimContinuationRule 2 1 0 = [] := by
  decide

/-- C5 (amended): on supported-features completion with bit 63 set,
page 1 is requested (and nothing otherwise); on an extended-features
page completion, no page is requested when page 0 reports bit 63
clear, and otherwise page + 1 is requested exactly when max_page is
non-zero and page differs from max_page; each completed page is posted
to the upper callback as the first action, before any request. -/
theorem C5_theorem :
    ∀ h p m f : Nat,
    requestedPages (OnReadRemoteSupportedFeaturesComplete h f) =
      (if f.testBit 63 then [1] else []) ∧
    (OnReadRemoteSupportedFeaturesComplete h f).head? =
      some (.postSupportedFeatures h f) ∧
    requestedPages (OnReadRemoteExtendedFeaturesComplete h p m f) =
      (if p = 0 ∧ f.testBit 63 = false then []
       else if m ≠ 0 ∧ p ≠ m then [p + 1] else []) ∧
    (OnReadRemoteExtendedFeaturesComplete h p m f).head? =
      some (.postExtendedFeatures h p m f) := by
  intro h p m f
  refine ⟨?_, ?_, ?_, ?_⟩
  · unfold OnReadRemoteSupportedFeaturesComplete
    split <;> simp [requestedPages]
  · unfold OnReadRemoteSupportedFeaturesComplete
    split <;> simp
  · unfold OnReadRemoteExtendedFeaturesComplete
    split
    · simp_all [requestedPages]
    · split <;> simp_all [requestedPages]
  · unfold OnReadRemoteExtendedFeaturesComplete
    split
    · simp
    · split <;> simp

/-- C7: the claim fails for the enqueue half: on a link with the
disconnected latch set, enqueue_packet is not a refusal that leaves
the link unchanged; it pushes onto the FIFO and then trips the fatal
RegisterEnqueue assertion, so the call produces no resulting state. -/
theorem C7_counterexample :
    ShimAclConnection.EnqueuePacket discLink [1] = none ∧
    ¬ enqueueRefusedUnchanged discLink [1] := by
  unfold enqueueRefusedUnchanged
  decide

/-- C7 (amended): on a link whose disconnected latch is set, a second
disconnect is refused with an error log carrying the handle and the
creation time and leaves the link state unchanged; a further
enqueue_packet attempt does not return a state at all: it trips the
fatal assertion in RegisterEnqueue. -/
theorem C7_theorem :
    ∀ (s : LinkState) (p : List Nat),
    s.is_disconnected = true →
    ShimAclConnection.Disconnect s =
      (s, [LinkLog.multipleDisconnectError s.handle s.creation_time]) ∧
    ShimAclConnection.EnqueuePacket s p = none := by
  intro s p h
  constructor
  · simp [ShimAclConnection.Disconnect, h]
  · simp [ShimAclConnection.EnqueuePacket,
      ShimAclConnection.RegisterEnqueue, h]

/-- Witness for C7: the concrete disconnected link refuses a second
disconnect unchanged and has no state after an enqueue attempt. -/
theorem C7_witness :
    ShimAclConnection.Disconnect discLink =
      (discLink, [LinkLog.multipleDisconnectError 5 11]) ∧
    ShimAclConnection.EnqueuePacket discLink [2] = none := by
  exact (C7_theorem discLink [2] (by decide))

/-- C8: the buffer handed to the send_data_upwards sink for an inbound
packet of length L on handle H is exactly the four bytes H & 0xff,
H >> 8, L & 0xff, L >> 8 followed by the raw payload. -/
theorem C8_theorem :
    ∀ (h : Nat) (packet : List Nat),
    h < 65536 → packet.length < 65536 →
    ShimAclConnection.data_ready_payload h packet =
      [h &&& 0xff, h >>> 8,
       packet.length &&& 0xff, packet.length >>> 8] ++ packet := by
  intro h packet _ hl
  simp [ShimAclConnection.data_ready_payload,
    ShimAclConnection.MakeLegacyBtHdrPacket, LowByte, HighByte,
    Nat.mod_eq_of_lt hl]

/-- Witness for C8: the 5-byte payload AA BB CC DD EE on handle 0x0123
is delivered as 23 01 05 00 followed by the payload. -/
theorem C8_witness :
    ShimAclConnection.data_ready_payload 0x123
        [0xAA, 0xBB, 0xCC, 0xDD, 0xEE] =
      [0x23, 0x01, 0x05, 0x00, 0xAA, 0xBB, 0xCC, 0xDD, 0xEE] := by
  have h := C8_theorem 0x123 [0xAA, 0xBB, 0xCC, 0xDD, 0xEE]
    (by decide) (by decide)
  simpa using h

/-- One link operation preserves the enqueue-registration invariant. -/
theorem stepLink_inv {s s' : LinkState} {op : LinkOp}
    (hs : LinkInv s) (h : stepLink s op = some s') : LinkInv s' := by
  unfold LinkInv at hs ⊢
  cases op with
  | enq p =>
    simp only [stepLink, ShimAclConnection.EnqueuePacket,
      ShimAclConnection.RegisterEnqueue] at h
    by_cases hd : s.is_disconnected
    · simp [hd] at h
    · by_cases hr : s.is_enqueue_registered
      · simp [hd, hr] at h
        subst h
        simp [hd, hr] at hs ⊢
      · simp [hd, hr] at h
        subst h
        simp [hd]
  | deq =>
    simp only [stepLink] at h
    by_cases hr : s.is_enqueue_registered
    · simp only [hr, if_true] at h
      rw [hr] at hs
      have hs' := hs.symm
      rw [Bool.and_eq_true] at hs'
      have hqe : s.queue.isEmpty = false := by simpa using hs'.1
      have hde : s.is_disconnected = false := by simpa using hs'.2
      cases hq1 : s.queue with
      | nil => rw [hq1] at hqe; simp at hqe
      | cons p rest =>
        simp only [ShimAclConnection.handle_enqueue, hq1] at h
        by_cases hrest : rest.isEmpty
        · simp [hrest, ShimAclConnection.UnregisterEnqueue, hr,
            Option.map] at h
          subst h
          simp [hrest]
        · simp [hrest, Option.map] at h
          subst h
          simp_all [hrest]
    · simp only [hr, if_false, Bool.false_eq_true, ite_false,
        Option.some.injEq] at h
      subst h
      exact hs
  | disc =>
    simp only [stepLink, ShimAclConnection.Disconnect,
      Option.some.injEq] at h
    by_cases hd : s.is_disconnected
    · simp [hd] at h
      subst h
      exact hs
    · by_cases hq : s.queue.isEmpty
      · simp [hd, hq, ShimAclConnection.UnregisterEnqueue] at h
        split at h <;> (subst h; simp_all)
      · simp [hd, hq, ShimAclConnection.UnregisterEnqueue] at h
        split at h <;> (subst h; simp_all)

/-- Running link operations from an invariant state keeps the
invariant. -/
theorem runLink_inv :
    ∀ (ops : List LinkOp) (s s' : LinkState),
    LinkInv s → runLink s ops = some s' → LinkInv s' := by
  intro ops
  induction ops with
  | nil =>
    intro s s' hs h
    simp [runLink] at h
    subst h
    exact hs
  | cons op rest ih =>
    intro s s' hs h
    simp only [runLink] at h
    cases hstep : stepLink s op with
    | none => rw [hstep] at h; simp at h
    | some s1 =>
      rw [hstep] at h
      exact ih s1 s' (stepLink_inv hs hstep) h

/-- C6: for every sequence of enqueue_packet, handle_enqueue and
disconnect operations completed from a freshly constructed link, the
enqueue registration with the lower queue is present iff the outbound
FIFO is non-empty and the disconnected latch is not set. -/
theorem C6_theorem :
    ∀ (h ct : Nat) (ops : List LinkOp) (s' : LinkState),
    runLink (ShimAclConnection.mkLink h ct) ops = some s' →
    LinkInv s' := by
  intro h ct ops s' hrun
  have h0 : LinkInv (ShimAclConnection.mkLink h ct) := by
    unfold LinkInv ShimAclConnection.mkLink
    simp
  exact runLink_inv ops _ s' h0 hrun

/-- Witness for C6: the enqueue-dequeue-disconnect run from a fresh
link on handle 3 ends in a state satisfying the invariant. -/
theorem C6_witness :
    LinkInv
      { handle := 3, creation_time := 0, queue := [],
        is_enqueue_registered := false, is_dequeue_registered := false,
        is_disconnected := true } := by
  exact C6_theorem 3 0 [.enq [1], .deq, .disc] _ (by decide)

/-- C1: the claim fails on the code: tearing down the classic link on
handle 9 posts on_disconnected before the history entry is pushed, so
the post does not come after the push. -/
theorem C1_counterexample :
    (Acl.OnClassicLinkDisconnected stC1 9 19 100).map
      (fun r => postedOnceOnlyAfterPush r.2 9) = some false := by
  rfl

/-- C1 (amended): for every handle whose link is torn down by the
disconnected event, classic or LE, on_disconnected is posted exactly
once, and the connection-history entry for the handle is pushed after
the post (the post precedes the push, not the other way around). -/
theorem C1_theorem :
    (∀ (st : AclState) (h r t : Nat) (st1 : AclState)
        (tr : List AclEvent),
      Acl.OnClassicLinkDisconnected st h r t = some (st1, tr) →
      tr.countP (isPostDisconnected h) = 1 ∧
      pushOnlyAfterPost tr h = true) ∧
    (∀ (st : AclState) (h r t : Nat) (st1 : AclState)
        (tr : List AclEvent),
      Acl.OnLeLinkDisconnected st h r t = some (st1, tr) →
      tr.countP (isPostDisconnected h) = 1 ∧
      pushOnlyAfterPost tr h = true) := by
  constructor
  · intro st h r t st1 tr hrun
    unfold Acl.OnClassicLinkDisconnected at hrun
    cases hl : st.classicMap.lookup h with
    | none => rw [hl] at hrun; simp at hrun
    | some link =>
      rw [hl] at hrun
      simp only [Option.some.injEq, Prod.mk.injEq] at hrun
      obtain ⟨-, htr⟩ := hrun
      subst htr
      constructor
      · simp [List.countP_cons, isPostDisconnected]
      · simp [pushOnlyAfterPost, isPostDisconnected, isPushHistory]
  · intro st h r t st1 tr hrun
    unfold Acl.OnLeLinkDisconnected at hrun
    cases hl : st.leMap.lookup h with
    | none => rw [hl] at hrun; simp at hrun
    | some link =>
      rw [hl] at hrun
      simp only [Option.some.injEq, Prod.mk.injEq] at hrun
      obtain ⟨-, htr⟩ := hrun
      subst htr
      constructor
      · simp [List.countP_cons, isPostDisconnected]
      · simp [pushOnlyAfterPost, isPostDisconnected, isPushHistory]

/-- Witness for C1: the concrete classic teardown trace on handle 9
posts on_disconnected exactly once and pushes history after it. -/
theorem C1_witness :
    ([AclEvent.eraseClassicLink 9,
      AclEvent.postClassicOnDisconnected 0 9 19,
      AclEvent.pushHistoryEntry 9].countP (isPostDisconnected 9) = 1) ∧
    pushOnlyAfterPost
      [AclEvent.eraseClassicLink 9,
       AclEvent.postClassicOnDisconnected 0 9 19,
       AclEvent.pushHistoryEntry 9] 9 = true := by
  exact C1_theorem.1 stC1 9 19 100
    { classicMap := []
      leMap := []
      shadowAcceptlist := shEmpty
      connectionHistory :=
        ⟨40, [.classic ⟨1, 2, 3, 4, 5, 6⟩ 50 100 9 true 19]⟩ }
    _ (by rfl)

/-- C2: on an LE connect-success event for a fresh handle, when the
link reports it was not in the controller filter accept list and the
role is central, initiate_disconnect is invoked on it with
REMOTE_USER_TERMINATED_CONNECTION and no on_connected is posted; in
every other case on_connected is posted exactly once. -/
theorem C2_theorem :
    ∀ (st : AclState) (a : AddressWithType) (conn : LeConnectionRecord)
      (now : Nat),
    st.leMap.lookup conn.connHandle = none →
    (conn.inFilterAcceptList = false ∧ conn.role = Role.central →
      AclEvent.initiateDisconnect conn.connHandle
          DisconnectReason.remoteUserTerminatedConnection ∈
        (Acl.OnLeConnectSuccess st a conn now).2 ∧
      (Acl.OnLeConnectSuccess st a conn now).2.countP
        isPostLeOnConnected = 0) ∧
    (¬ (conn.inFilterAcceptList = false ∧ conn.role = Role.central) →
      (Acl.OnLeConnectSuccess st a conn now).2.countP
        isPostLeOnConnected = 1) := by
  intro st a conn now hnone
  unfold Acl.OnLeConnectSuccess
  simp only [emplaceLink, hnone]
  constructor
  · rintro ⟨hfa, hrole⟩
    simp [List.lookup, hfa, hrole, isPostLeOnConnected, List.countP_cons,
      List.countP_append]
  · intro hnot
    by_cases hfa : conn.inFilterAcceptList = false
    · have hrole : ¬ conn.role = Role.central := fun hc => hnot ⟨hfa, hc⟩
      simp [List.lookup, hfa, hrole, isPostLeOnConnected,
        List.countP_cons, List.countP_append]
    · have hfa' : conn.inFilterAcceptList = true := by
        simpa using hfa
      simp [List.lookup, hfa', isPostLeOnConnected, List.countP_cons,
        List.countP_append]

/-- Witness for C2: the raced connect-success on handle 0x40 (not in
accept list, central) yields the initiate_disconnect action, and the
clean connect-success on handle 0x41 posts on_connected once. -/
theorem C2_witness :
    AclEvent.initiateDisconnect 64
        DisconnectReason.remoteUserTerminatedConnection ∈
      (Acl.OnLeConnectSuccess stOneA addrB connRace 5).2 ∧
    (Acl.OnLeConnectSuccess stOneA addrA connOk 5).2.countP
      isPostLeOnConnected = 1 := by
  refine ⟨((C2_theorem stOneA addrB connRace 5 (by rfl)).1 (by exact ⟨rfl, rfl⟩)).1, ?_⟩
  exact (C2_theorem stOneA addrA connOk 5 (by rfl)).2 (by simp [connOk, connRace])

/-- C3: every LE connect-success removes the peer identity from the
shadow accept list, taking the connection's separate identity field
when the reported address is an RPA (random type with top bits 01 in
byte 5) and the reported address otherwise; consequently the shadow
accept list afterwards does not contain that identity's key. -/
theorem C3_theorem :
    ∀ (st : AclState) (a : AddressWithType) (conn : LeConnectionRecord)
      (now : Nat),
    (Acl.OnLeConnectSuccess st a conn now).1.shadowAcceptlist =
      (st.shadowAcceptlist.Remove
        (if IsRpa a then conn.peerAddressWithType else a)).2 ∧
    (st.shadowAcceptlist.acceptlist_set.Nodup →
      ConnectAddressWithType.ofAddressWithType
          (if IsRpa a then conn.peerAddressWithType else a) ∉
        (Acl.OnLeConnectSuccess st a conn
          now).1.shadowAcceptlist.acceptlist_set) := by
  intro st a conn now
  have hstate :
      (Acl.OnLeConnectSuccess st a conn now).1.shadowAcceptlist =
        (st.shadowAcceptlist.Remove
          (if IsRpa a then conn.peerAddressWithType else a)).2 := by
    unfold Acl.OnLeConnectSuccess
    dsimp only
    repeat' split
    all_goals rfl
  refine ⟨hstate, ?_⟩
  intro hnodup
  rw [hstate]
  unfold ShadowAcceptlist.Remove
  set k := ConnectAddressWithType.ofAddressWithType
    (if IsRpa a then conn.peerAddressWithType else a) with hk
  by_cases hmem : k ∈ st.shadowAcceptlist.acceptlist_set
  · simp only [hmem, if_true]
    intro hc
    rw [List.Nodup.mem_erase_iff hnodup] at hc
    exact hc.1 rfl
  · simp [hmem]

/-- Witness for C3: the clean connect-success to addrA on the state
whose shadow accept list holds exactly addrA leaves a shadow accept
list without addrA's key. -/
theorem C3_witness :
    ConnectAddressWithType.ofAddressWithType
        (if IsRpa addrA then connOk.peerAddressWithType else addrA) ∉
      (Acl.OnLeConnectSuccess stOneA addrA connOk
        7).1.shadowAcceptlist.acceptlist_set := by
  exact (C3_theorem stOneA addrA connOk 7).2 (by decide)

end AclShim
